import Mathlib

/-!
Verification development for the retained-mode UI core of the repository
(`src/gui/mod.rs`).  The widget tree, the measure and arrange passes, the
drawing pass, hit testing, input routing and the button composite are
embedded as executable Lean definitions; theorems below settle the frozen
claims about them.

`f32` values are embedded as `F32`: rationals extended with the IEEE-754
special values NaN, +inf and -inf, with the comparison/arithmetic semantics
the source relies on (every comparison involving NaN is false, `is_nan`,
saturating behaviour of the infinities under add/sub/mul).

The arena (`utils/pool`), the drawing-command buffer (`gui/draw.rs`) and the
small math types (`math::Rect`, `Vec2`) are not part of the provided source
slice; they are modelled from the specification (sections 3, 4.1, 4.2) and
carry `Modelled from the spec:` doc comments.
-/

/-- An exact rational written as an integer numerator over a positive
natural denominator, kept unnormalized so that all arithmetic is structural
(and therefore kernel-computable).  Every `Frac` built in this development
has a positive denominator; the order predicates assume it. -/
structure Frac where
  num : Int
  den : Nat
deriving DecidableEq, Repr

instance (n : Nat) : OfNat Frac n := ⟨⟨Int.ofNat n, 1⟩⟩

namespace Frac

/-- Exact `<` by cross multiplication (denominators positive). -/
def blt (a b : Frac) : Bool := decide (a.num * (b.den : Int) < b.num * (a.den : Int))

/-- Exact `≤` by cross multiplication (denominators positive). -/
def ble (a b : Frac) : Bool := decide (a.num * (b.den : Int) ≤ b.num * (a.den : Int))

/-- Exact addition. -/
def add (a b : Frac) : Frac := ⟨a.num * (b.den : Int) + b.num * (a.den : Int), a.den * b.den⟩

/-- Exact multiplication. -/
def mul (a b : Frac) : Frac := ⟨a.num * b.num, a.den * b.den⟩

/-- Negation. -/
def neg (a : Frac) : Frac := ⟨-a.num, a.den⟩

end Frac

/-- IEEE-754 `f32` values as used by the layout code: NaN, the two
infinities, and finite values represented exactly as fractions. -/
inductive F32 where
  | nan : F32
  | inf : F32
  | ninf : F32
  | fin (q : Frac) : F32
deriving DecidableEq, Repr

namespace F32

/-- IEEE `<`: any comparison involving NaN is false. -/
def lt : F32 → F32 → Bool
  | nan, _ => false
  | _, nan => false
  | ninf, ninf => false
  | ninf, _ => true
  | fin _, ninf => false
  | fin p, fin q => Frac.blt p q
  | fin _, inf => true
  | inf, _ => false

/-- IEEE `>`. -/
def gt (a b : F32) : Bool := lt b a

/-- IEEE `<=`: any comparison involving NaN is false. -/
def le : F32 → F32 → Bool
  | nan, _ => false
  | _, nan => false
  | ninf, _ => true
  | fin _, ninf => false
  | fin p, fin q => Frac.ble p q
  | fin _, inf => true
  | inf, inf => true
  | inf, _ => false

/-- IEEE negation. -/
def neg : F32 → F32
  | nan => nan
  | inf => ninf
  | ninf => inf
  | fin q => fin q.neg

/-- IEEE addition (NaN propagates; `inf + -inf = NaN`). -/
def add : F32 → F32 → F32
  | nan, _ => nan
  | _, nan => nan
  | inf, ninf => nan
  | ninf, inf => nan
  | inf, _ => inf
  | ninf, _ => ninf
  | fin _, inf => inf
  | fin _, ninf => ninf
  | fin p, fin q => fin (p.add q)

/-- IEEE subtraction, `a - b = a + (-b)`. -/
def sub (a b : F32) : F32 := a.add b.neg

/-- IEEE multiplication (NaN propagates; `inf * 0 = NaN`). -/
def mul : F32 → F32 → F32
  | nan, _ => nan
  | _, nan => nan
  | inf, inf => inf
  | inf, ninf => ninf
  | ninf, inf => ninf
  | ninf, ninf => inf
  | inf, fin q => if 0 < q.num then inf else if q.num < 0 then ninf else nan
  | ninf, fin q => if 0 < q.num then ninf else if q.num < 0 then inf else nan
  | fin q, inf => if 0 < q.num then inf else if q.num < 0 then ninf else nan
  | fin q, ninf => if 0 < q.num then ninf else if q.num < 0 then inf else nan
  | fin p, fin q => fin (p.mul q)

/-- `f32::is_nan`. -/
def isNan : F32 → Bool
  | nan => true
  | _ => false

end F32

/-- 2D vector (`math::vec2::Vec2`).  Modelled from the spec: a non-negative
2-vector type with componentwise construction and addition. -/
structure Vec2 where
  x : F32
  y : F32
deriving DecidableEq, Repr

namespace Vec2

/-- `Vec2::new()`, the zero vector. -/
def new : Vec2 := ⟨F32.fin 0, F32.fin 0⟩

/-- `Vec2::make(x, y)`. -/
def make (x y : F32) : Vec2 := ⟨x, y⟩

/-- Componentwise addition (`+=` on vectors). -/
def add (a b : Vec2) : Vec2 := ⟨a.x.add b.x, a.y.add b.y⟩

end Vec2

/-- Axis-aligned rectangle (`math::Rect<f32>`).  Modelled from the spec:
origin plus extent. -/
structure Rect where
  x : F32
  y : F32
  w : F32
  h : F32
deriving DecidableEq, Repr

namespace Rect

/-- `Rect::new(x, y, w, h)`. -/
def new (x y w h : F32) : Rect := ⟨x, y, w, h⟩

/-- Modelled from the spec: the clip rectangle emitted during draw is the
node's screen bounds "inflated by 0.9 px"; inflation moves the origin out by
the given amounts and widens each extent by twice that amount. -/
def inflate (r : Rect) (dx dy : F32) : Rect :=
  ⟨r.x.sub dx, r.y.sub dy, r.w.add (dx.add dx), r.h.add (dy.add dy)⟩

/-- Modelled from the spec: rectangle containment, used by
`command_contains_point` for clip commands. -/
def containsPoint (r : Rect) (pt : Vec2) : Bool :=
  F32.le r.x pt.x && F32.le pt.x (r.x.add r.w) &&
  F32.le r.y pt.y && F32.le pt.y (r.y.add r.h)

end Rect

/-- `maxf` from `gui/mod.rs`: `if a > b { a } else { b }`. -/
def maxf (a b : F32) : F32 := if F32.gt a b then a else b

/-- `minf` from `gui/mod.rs`: `if a < b { a } else { b }`. -/
def minf (a b : F32) : F32 := if F32.lt a b then a else b

/-- Four-sided thickness (`Thickness`). -/
structure Thickness where
  left : F32
  top : F32
  right : F32
  bottom : F32
deriving DecidableEq, Repr

/-- `Thickness::zero()`. -/
def Thickness.zero : Thickness := ⟨F32.fin 0, F32.fin 0, F32.fin 0, F32.fin 0⟩

/-- Overlay colour (`draw::Color`).  Modelled from the spec: an opaque RGBA
value; the core never inspects channels, so bytes suffice. -/
structure Color where
  r : Nat
  g : Nat
  b : Nat
  a : Nat
deriving DecidableEq, Repr

/-- `Color::opaque(r, g, b)`. -/
def Color.opaque (r g b : Nat) : Color := ⟨r, g, b, 255⟩

/-- `Color::white()`. -/
def Color.white : Color := ⟨255, 255, 255, 255⟩

/-- Modelled from the spec: generational arena handle — "Handles are pairs
`(index, generation)`" — with the distinguished null handle
(`Handle::none()`). -/
inductive Handle where
  | none : Handle
  | mk (index : Nat) (gen : Nat) : Handle
deriving DecidableEq, Repr

/-- `Handle::is_none()`. -/
def Handle.isNone : Handle → Bool
  | .none => true
  | .mk _ _ => false

/-- Modelled from the spec: one arena slot, carrying its monotonic
generation counter and the (possibly freed) payload. -/
structure Slot (α : Type) where
  gen : Nat
  payload : Option α
deriving DecidableEq, Repr

/-- Modelled from the spec: the arena (`utils::pool::Pool`) — "a pool that
owns all widget nodes", slots stored contiguously. -/
structure Pool (α : Type) where
  slots : List (Slot α)
deriving DecidableEq, Repr

namespace Pool

/-- Modelled from the spec: `borrow` "returns absent on stale or
out-of-range handles"; a handle resolves when its index is in range, the
slot's generation matches, and the slot is occupied. -/
def borrow (p : Pool α) (h : Handle) : Option α :=
  match h with
  | .none => Option.none
  | .mk i g =>
    match p.slots[i]? with
    | Option.some s => if s.gen = g then s.payload else Option.none
    | Option.none => Option.none

/-- `is_valid_handle`: the handle resolves. -/
def isValidHandle (p : Pool α) (h : Handle) : Bool := (p.borrow h).isSome

/-- Modelled from the spec: `borrow_mut` followed by a mutation of the
referenced node, as a functional update.  A handle that does not resolve
leaves the pool unchanged (the failure-semantics contract of section 4.1). -/
def update (p : Pool α) (h : Handle) (f : α → α) : Pool α :=
  match h with
  | .none => p
  | .mk i g =>
    match p.slots[i]? with
    | Option.some s =>
      if s.gen = g then
        match s.payload with
        | Option.some v => ⟨p.slots.set i ⟨s.gen, Option.some (f v)⟩⟩
        | Option.none => p
      else p
    | Option.none => p

theorem lt_length_of_getElem?_isSome {l : List α} {i : Nat} {s : α}
    (hget : l[i]? = Option.some s) : i < l.length := by
  by_contra hk
  rw [List.getElem?_eq_none (Nat.le_of_not_lt hk)] at hget
  exact Option.noConfusion hget

theorem borrow_none_update (p : Pool α) (h : Handle) (f : α → α)
    (hb : p.borrow h = Option.none) : p.update h f = p := by
  cases h with
  | none => rfl
  | mk i g =>
    unfold borrow at hb
    unfold update
    cases hget : p.slots[i]? with
    | none => simp [hget]
    | some s =>
      simp only [hget] at hb ⊢
      by_cases hgen : s.gen = g
      · simp only [hgen, if_true] at hb ⊢
        simp [hb]
      · simp [hgen]

theorem borrow_update_self (p : Pool α) (h : Handle) (f : α → α) :
    (p.update h f).borrow h = (p.borrow h).map f := by
  cases h with
  | none => rfl
  | mk i g =>
    unfold borrow update
    cases hget : p.slots[i]? with
    | none => simp [hget]
    | some s =>
      by_cases hgen : s.gen = g
      · cases hpay : s.payload with
        | none => simp [hget, hgen, hpay]
        | some v =>
          have hlen : i < p.slots.length := lt_length_of_getElem?_isSome hget
          simp [hget, hgen, hpay, List.getElem?_set_eq_of_lt _ hlen]
      · simp [hget, hgen]

theorem borrow_update_other (p : Pool α) (h h' : Handle) (f : α → α)
    (hne : h' ≠ h) : (p.update h f).borrow h' = p.borrow h' := by
  cases h with
  | none => rfl
  | mk i g =>
    cases h' with
    | none => rfl
    | mk i' g' =>
      unfold borrow update
      cases hget : p.slots[i]? with
      | none => simp [hget]
      | some s =>
        by_cases hgen : s.gen = g
        · cases hpay : s.payload with
          | none => simp [hget, hgen, hpay]
          | some v =>
            simp only [hget, hgen, hpay, if_true]
            by_cases hi : i' = i
            · subst hi
              have hgne : g' ≠ g := by
                intro hg; exact hne (by rw [hg])
              have hlen : i' < p.slots.length := lt_length_of_getElem?_isSome hget
              simp [List.getElem?_set_eq_of_lt _ hlen, hget, hgen, hgne, Ne.symm hgne]
            · simp [List.getElem?_set_ne (fun hh => hi hh.symm)]
        · simp [hget, hgen]

end Pool

/-- `HorizontalAlignment`. -/
inductive HorizontalAlignment where
  | stretch | left | center | right
deriving DecidableEq, Repr

/-- `VerticalAlignment`. -/
inductive VerticalAlignment where
  | stretch | top | center | bottom
deriving DecidableEq, Repr

/-- `Visibility`. -/
inductive Visibility where
  | visible | collapsed | hidden
deriving DecidableEq, Repr

/-- `CommandKind` of the drawing buffer (`gui/draw.rs`).  Modelled from the
spec: clip, geometry and text commands. -/
inductive CommandKind where
  | clip | geometry | textCmd
deriving DecidableEq, Repr

/-- Modelled from the spec: the cached formatted text of a Text node.  Only
the raw string matters to the core (`draw_text` "returns absent if the text
is empty"); glyph metrics live with the external font supplier. -/
structure FormattedText where
  text : String
deriving DecidableEq, Repr

/-- Modelled from the spec: one recorded drawing command — its kind, the
nesting depth recorded at commit time, and the committed geometry at the
granularity of the rectangles the core pushes (clip rectangle, filled
rectangle, the four stroke-side rectangles).  `command_contains_point` is
rectangle containment for clips and the even-odd test against the
triangulation for geometry; at rectangle granularity both are containment
in one of the recorded rectangles.  Colours, textures and text origins are
not consulted by any recorded-command test and are not stored. -/
structure DrawCommand where
  kind : CommandKind
  nesting : Nat
  rects : List Rect
deriving DecidableEq, Repr

/-- Modelled from the spec: the per-frame drawing-command buffer with its
internal clip stack, current nesting depth, and the vertices pushed since
the last commit (as rectangles). -/
structure DrawingContext where
  commands : List DrawCommand
  clipStack : List Rect
  nesting : Nat
  pendingRects : List Rect
deriving DecidableEq, Repr

namespace DrawingContext

/-- `DrawingContext::new()` / `clear()`. -/
def new : DrawingContext := ⟨[], [], 0, []⟩

/-- `set_nesting`. -/
def setNesting (dc : DrawingContext) (n : Nat) : DrawingContext :=
  { dc with nesting := n }

/-- Modelled from the spec: `commit_clip_rect` records a clip command,
pushes the rectangle onto the clip stack and returns the command index. -/
def commitClipRect (dc : DrawingContext) (r : Rect) : DrawingContext × Nat :=
  ({ dc with commands := dc.commands ++ [⟨CommandKind.clip, dc.nesting, [r]⟩],
             clipStack := r :: dc.clipStack },
   dc.commands.length)

/-- Modelled from the spec: `push_rect_filled` pushes the rectangle's
triangles into the pending vertex buffer. -/
def pushRectFilled (dc : DrawingContext) (r : Rect) : DrawingContext :=
  { dc with pendingRects := dc.pendingRects ++ [r] }

/-- Modelled from the spec: `push_rect_vary` (`push_rect_stroke`) pushes the
four per-side stroke rectangles of `r` with thickness `t`. -/
def pushRectVary (dc : DrawingContext) (r : Rect) (t : Thickness) : DrawingContext :=
  { dc with pendingRects := dc.pendingRects ++
      [⟨r.x, r.y, t.left, r.h⟩,
       ⟨r.x, r.y, r.w, t.top⟩,
       ⟨(r.x.add r.w).sub t.right, r.y, t.right, r.h⟩,
       ⟨r.x, (r.y.add r.h).sub t.bottom, r.w, t.bottom⟩] }

/-- Modelled from the spec: `commit` turns the pending vertices into one
command of the given kind and returns its index; with nothing pending it
returns absent. -/
def commit (dc : DrawingContext) (kind : CommandKind) : DrawingContext × Option Nat :=
  match dc.pendingRects with
  | [] => (dc, Option.none)
  | rs => ({ dc with commands := dc.commands ++ [⟨kind, dc.nesting, rs⟩],
                     pendingRects := [] },
           Option.some dc.commands.length)

/-- Modelled from the spec: `draw_text` records a text command at the given
origin and returns its index, or absent if the text is empty. -/
def drawText (dc : DrawingContext) (_origin : Vec2) (ft : FormattedText) :
    DrawingContext × Option Nat :=
  if ft.text = "" then (dc, Option.none)
  else ({ dc with commands := dc.commands ++ [⟨CommandKind.textCmd, dc.nesting, []⟩] },
        Option.some dc.commands.length)

/-- `revert_clip_geom`: pops the matching clip off the internal stack. -/
def revertClipGeom (dc : DrawingContext) : DrawingContext :=
  { dc with clipStack := dc.clipStack.tail }

/-- Modelled from the spec: `is_command_contains_point` — rectangle
containment for clips, the even-odd triangulation test for geometry; at the
recorded rectangle granularity, containment in one of the rectangles. -/
def isCommandContainsPoint (cmd : DrawCommand) (pt : Vec2) : Bool :=
  cmd.rects.any (fun r => r.containsPoint pt)

end DrawingContext

/-- `Text` (kind-specific state of a Text node). -/
structure TextData where
  needUpdate : Bool
  text : String
  font : Handle
  verticalAlignment : VerticalAlignment
  horizontalAlignment : HorizontalAlignment
  formattedText : Option FormattedText
deriving DecidableEq, Repr

/-- `Border` (kind-specific state of a Border node). -/
structure BorderData where
  strokeThickness : Thickness
  strokeColor : Color
deriving DecidableEq, Repr

/-- `Button` (kind-specific state).  The boxed click closure is embedded as
an identifier interpreted by a `clickInvoke` environment when invoked. -/
structure ButtonData where
  click : Option Nat
  wasPressed : Bool
deriving DecidableEq, Repr

/-- `Button::new()`. -/
def ButtonData.new : ButtonData := ⟨Option.none, false⟩

/-- `UINodeKind`.  The `UserControl` payload (`Box<dyn Any>`) carries no
state the core reads and is dropped. -/
inductive UINodeKind where
  | base
  | text (t : TextData)
  | border (b : BorderData)
  | window
  | button (b : ButtonData)
  | scrollBar
  | scrollViewer
  | textBox
  | image
  | grid
  | canvas
  | scrollContentPresenter
  | slideSelector
  | checkBox
  | userControl
deriving DecidableEq, Repr

/-- `RoutedEventHandlerType` (with the `Count` sentinel). -/
inductive RoutedEventHandlerType where
  | mouseMove | mouseEnter | mouseLeave | mouseDown | mouseUp | count
deriving DecidableEq, Repr

/-- The node's handler table
(`event_handlers: [Option<Box<EventHandler>>; Count]`).  Boxed handler
closures are embedded as identifiers interpreted by an `invoke`
environment. -/
structure EventHandlers where
  mouseMove : Option Nat
  mouseEnter : Option Nat
  mouseLeave : Option Nat
  mouseDown : Option Nat
  mouseUp : Option Nat
deriving DecidableEq, Repr

namespace EventHandlers

/-- The all-empty handler table (`Default::default()`). -/
def default : EventHandlers :=
  ⟨Option.none, Option.none, Option.none, Option.none, Option.none⟩

/-- Indexing `event_handlers[event_type as usize]`. -/
def get (hs : EventHandlers) : RoutedEventHandlerType → Option Nat
  | .mouseMove => hs.mouseMove
  | .mouseEnter => hs.mouseEnter
  | .mouseLeave => hs.mouseLeave
  | .mouseDown => hs.mouseDown
  | .mouseUp => hs.mouseUp
  | .count => Option.none

/-- Writing `event_handlers[event_type as usize] = v`. -/
def set (hs : EventHandlers) : RoutedEventHandlerType → Option Nat → EventHandlers
  | .mouseMove, v => { hs with mouseMove := v }
  | .mouseEnter, v => { hs with mouseEnter := v }
  | .mouseLeave, v => { hs with mouseLeave := v }
  | .mouseDown, v => { hs with mouseDown := v }
  | .mouseUp, v => { hs with mouseUp := v }
  | .count, _ => hs

theorem get_set_self (hs : EventHandlers) (t : RoutedEventHandlerType)
    (v : Option Nat) (ht : t ≠ RoutedEventHandlerType.count) :
    (hs.set t v).get t = v := by
  cases t <;> first | rfl | exact absurd rfl ht

end EventHandlers

/-- `MouseButton` (from the windowing library). -/
inductive MouseButton where
  | left | right | middle | other (n : Nat)
deriving DecidableEq, Repr

/-- `RoutedEventKind`.  Key codes (`VirtualKeyCode`) are opaque numbers. -/
inductive RoutedEventKind where
  | mouseDown (pos : Vec2) (button : MouseButton)
  | mouseMove (pos : Vec2)
  | mouseUp (pos : Vec2) (button : MouseButton)
  | text (symbol : Char)
  | keyDown (code : Nat)
  | keyUp (code : Nat)
  | mouseWheel (pos : Vec2) (amount : Nat)
  | mouseLeave
  | mouseEnter
deriving DecidableEq, Repr

/-- `RoutedEvent`. -/
structure RoutedEvent where
  kind : RoutedEventKind
  handled : Bool
deriving DecidableEq, Repr

/-- `RoutedEvent::new(kind)`. -/
def RoutedEvent.new (kind : RoutedEventKind) : RoutedEvent := ⟨kind, false⟩

/-- `UINode`: the widget node. -/
structure UINode where
  kind : UINodeKind
  desiredLocalPosition : Vec2
  width : F32
  height : F32
  screenPosition : Vec2
  desiredSize : Vec2
  actualLocalPosition : Vec2
  actualSize : Vec2
  minSize : Vec2
  maxSize : Vec2
  color : Color
  row : Nat
  column : Nat
  verticalAlignment : VerticalAlignment
  horizontalAlignment : HorizontalAlignment
  margin : Thickness
  visibility : Visibility
  children : List Handle
  parent : Handle
  commandIndices : List Nat
  isMouseOver : Bool
  eventHandlers : EventHandlers
deriving DecidableEq, Repr

namespace UINode

/-- `UINode::new(kind)`. -/
def new (kind : UINodeKind) : UINode where
  kind := kind
  desiredLocalPosition := Vec2.new
  width := F32.nan
  height := F32.nan
  screenPosition := Vec2.new
  desiredSize := Vec2.new
  actualLocalPosition := Vec2.new
  actualSize := Vec2.new
  minSize := Vec2.make (F32.fin 0) (F32.fin 0)
  maxSize := Vec2.make F32.inf F32.inf
  color := Color.white
  row := 0
  column := 0
  verticalAlignment := VerticalAlignment.stretch
  horizontalAlignment := HorizontalAlignment.stretch
  margin := Thickness.zero
  visibility := Visibility.visible
  children := []
  parent := Handle.none
  commandIndices := []
  isMouseOver := false
  eventHandlers := EventHandlers.default

/-- `UINode::get_screen_bounds()`. -/
def getScreenBounds (n : UINode) : Rect :=
  Rect.new n.screenPosition.x n.screenPosition.y n.actualSize.x n.actualSize.y

/-- `UINode::set_handler`. -/
def setHandler (n : UINode) (t : RoutedEventHandlerType) (v : Option Nat) : UINode :=
  { n with eventHandlers := n.eventHandlers.set t v }

end UINode

/-- `UserInterface`: the single owning structure of the core. -/
structure UserInterface where
  nodes : Pool UINode
  drawingContext : DrawingContext
  defaultFont : Handle
  visualDebug : Bool
  rootCanvas : Handle
  pickedNode : Handle
  prevPickedNode : Handle
  capturedNode : Handle
deriving DecidableEq, Repr

/-- A font from the external supplier (`resource::ttf::Font`): opaque to the
core; only presence in the font cache matters to the draw pass. -/
structure Font where
  id : Nat
deriving DecidableEq, Repr

namespace UserInterface

/-- `borrow_mut` followed by an in-place mutation of one node. -/
def updateNode (ui : UserInterface) (h : Handle) (f : UINode → UINode) : UserInterface :=
  { ui with nodes := ui.nodes.update h f }

/-- `UserInterface::capture_mouse`. -/
def captureMouse (ui : UserInterface) (node : Handle) : UserInterface × Bool :=
  if ui.capturedNode.isNone then
    if ui.nodes.isValidHandle node then
      ({ ui with capturedNode := node }, true)
    else (ui, false)
  else (ui, false)

/-- `UserInterface::release_mouse_capture`. -/
def releaseMouseCapture (ui : UserInterface) : UserInterface :=
  { ui with capturedNode := Handle.none }

end UserInterface

/-- Removal of the first occurrence, as the source does it: find the
position of the handle in the child list and `remove` it; absent position
leaves the list unchanged. -/
def removeFirst : List Handle → Handle → List Handle
  | [], _ => []
  | x :: rest, h => if x = h then rest else x :: removeFirst rest h

namespace UserInterface

/-- `UserInterface::unlink_node`: clear the child's parent handle, then
remove the child from the former parent's child list. -/
def unlinkNode (ui : UserInterface) (nodeHandle : Handle) : UserInterface :=
  let parentHandle :=
    match ui.nodes.borrow nodeHandle with
    | Option.some node => node.parent
    | Option.none => Handle.none
  let ui1 := ui.updateNode nodeHandle (fun node => { node with parent := Handle.none })
  ui1.updateNode parentHandle
    (fun parent => { parent with children := removeFirst parent.children nodeHandle })

/-- `UserInterface::link_nodes`: unlink the child, then set its parent and
append it to the parent's child list (the append happens only when the
child handle resolves, as in the source's nested borrow). -/
def linkNodes (ui : UserInterface) (childHandle parentHandle : Handle) : UserInterface :=
  let ui1 := ui.unlinkNode childHandle
  match ui1.nodes.borrow childHandle with
  | Option.some _ =>
    let ui2 := ui1.updateNode childHandle (fun child => { child with parent := parentHandle })
    ui2.updateNode parentHandle
      (fun parent => { parent with children := parent.children ++ [childHandle] })
  | Option.none => ui1

end UserInterface

namespace UserInterface

/-- The child-measuring loop shared by the Border and default arms of
`measure_override`: measure each child against `sizeForChild`, then fold the
per-axis maximum of the children's desired sizes.  `step` is the recursive
`measure` call at the remaining fuel; the result is absent when a child
measurement runs into the source's undefined behaviour. -/
def measureMaxFold (step : UserInterface → Handle → Vec2 → Option UserInterface) :
    UserInterface → List Handle → Vec2 → Vec2 → Option (UserInterface × Vec2)
  | ui, [], _, acc => Option.some (ui, acc)
  | ui, c :: rest, sizeForChild, acc =>
    match step ui c sizeForChild with
    | Option.none => Option.none
    | Option.some ui1 =>
      let acc1 :=
        match ui1.nodes.borrow c with
        | Option.some child =>
          Vec2.make
            (if F32.gt child.desiredSize.x acc.x then child.desiredSize.x else acc.x)
            (if F32.gt child.desiredSize.y acc.y then child.desiredSize.y else acc.y)
        | Option.none => acc
      measureMaxFold step ui1 rest sizeForChild acc1

/-- The Canvas arm's child loop: measure every child, no size folding. -/
def measureOnlyFold (step : UserInterface → Handle → Vec2 → Option UserInterface) :
    UserInterface → List Handle → Vec2 → Option UserInterface
  | ui, [], _ => Option.some ui
  | ui, c :: rest, sizeForChild =>
    match step ui c sizeForChild with
    | Option.none => Option.none
    | Option.some ui1 => measureOnlyFold step ui1 rest sizeForChild

/-- `UserInterface::measure_override`: kind-specific measurement of the
children, returning the node's desired size before the outer step's
post-processing. -/
def measureOverride (step : UserInterface → Handle → Vec2 → Option UserInterface)
    (ui : UserInterface) (nodeKind : UINodeKind) (children : List Handle)
    (availableSize : Vec2) : Option (UserInterface × Vec2) :=
  match nodeKind with
  | .border b =>
    let marginX := b.strokeThickness.left.add b.strokeThickness.right
    let marginY := b.strokeThickness.top.add b.strokeThickness.bottom
    let sizeForChild := Vec2.make (availableSize.x.sub marginX) (availableSize.y.sub marginY)
    match measureMaxFold step ui children sizeForChild Vec2.new with
    | Option.some (ui1, desired) =>
      Option.some (ui1, Vec2.make (desired.x.add marginX) (desired.y.add marginY))
    | Option.none => Option.none
  | .canvas =>
    let sizeForChild := Vec2.make F32.inf F32.inf
    match measureOnlyFold step ui children sizeForChild with
    | Option.some ui1 => Option.some (ui1, Vec2.new)
    | Option.none => Option.none
  | _ =>
    measureMaxFold step ui children availableSize Vec2.new

/-- `UserInterface::measure`.  The result is `none` exactly when the run
reaches the source's undefined behaviour: for a node whose visibility is not
`Visible` the source stores `desired_size = (0,0)` but then falls through
and dereferences the still-null `node_kind` pointer in `measure_override`.
Exhausted fuel leaves the state unchanged (every theorem below either holds
for all fuel or supplies enough). -/
def measure : Nat → UserInterface → Handle → Vec2 → Option UserInterface
  | 0, ui, _, _ => Option.some ui
  | n + 1, ui, nodeHandle, availableSize =>
    match ui.nodes.borrow nodeHandle with
    | Option.none => Option.some ui
    | Option.some node =>
      let margin := Vec2.make (node.margin.left.add node.margin.right)
                             (node.margin.top.add node.margin.bottom)
      let sizeForChild := Vec2.make
        (let w := if F32.gt node.width (F32.fin 0) then node.width
                  else maxf (F32.fin 0) (availableSize.x.sub margin.x)
         if F32.gt w node.maxSize.x then node.maxSize.x
         else if F32.lt w node.minSize.x then node.minSize.x
         else w)
        (let hh := if F32.gt node.height (F32.fin 0) then node.height
                   else maxf (F32.fin 0) (availableSize.y.sub margin.y)
         if F32.gt hh node.maxSize.y then node.maxSize.y
         else if F32.lt hh node.minSize.y then node.minSize.y
         else hh)
      if node.visibility = Visibility.visible then
        match measureOverride (fun u c sz => measure n u c sz)
                ui node.kind node.children sizeForChild with
        | Option.none => Option.none
        | Option.some (ui1, overrideSize) =>
          Option.some (ui1.updateNode nodeHandle (fun nd =>
            -- the outer step, in source order: width override, x clamp,
            -- y clamp, height override, margin, clamp to available size
            let d1x := if ¬ nd.width.isNan then nd.width else overrideSize.x
            let d2x := if F32.gt d1x nd.maxSize.x then nd.maxSize.x
                       else if F32.lt d1x nd.minSize.x then nd.minSize.x
                       else d1x
            let d2y := if F32.gt overrideSize.y nd.maxSize.y then nd.maxSize.y
                       else if F32.lt overrideSize.y nd.minSize.y then nd.minSize.y
                       else overrideSize.y
            let d3y := if ¬ nd.height.isNan then nd.height else d2y
            let d4x := d2x.add margin.x
            let d4y := d3y.add margin.y
            let d5x := if F32.gt d4x availableSize.x then availableSize.x else d4x
            let d5y := if F32.gt d4y availableSize.y then availableSize.y else d4y
            { nd with desiredSize := Vec2.make d5x d5y }))
      else
        -- `node.desired_size = (0,0)` is stored, then the null `node_kind`
        -- pointer is dereferenced: undefined behaviour poisons the run.
        Option.none

/-- The child-arranging loop of the Border and default arms of
`arrange_override`: every child is arranged against the same rectangle. -/
def arrangeListFold (step : UserInterface → Handle → Rect → UserInterface) :
    UserInterface → List Handle → Rect → UserInterface
  | ui, [], _ => ui
  | ui, c :: rest, r => arrangeListFold step (step ui c r) rest r

/-- The Canvas arm of `arrange_override`: each child is arranged at its
desired local position with its desired size. -/
def arrangeCanvasFold (step : UserInterface → Handle → Rect → UserInterface) :
    UserInterface → List Handle → UserInterface
  | ui, [] => ui
  | ui, c :: rest =>
    let ui1 :=
      match ui.nodes.borrow c with
      | Option.some child =>
        step ui c (Rect.new child.desiredLocalPosition.x child.desiredLocalPosition.y
                            child.desiredSize.x child.desiredSize.y)
      | Option.none => ui
    arrangeCanvasFold step ui1 rest

/-- `UserInterface::arrange_override`: kind-specific arrangement of the
children; every arm returns `final_size` unchanged. -/
def arrangeOverride (step : UserInterface → Handle → Rect → UserInterface)
    (ui : UserInterface) (nodeKind : UINodeKind) (children : List Handle)
    (finalSize : Vec2) : UserInterface × Vec2 :=
  match nodeKind with
  | .border b =>
    let rectForChild := Rect.new b.strokeThickness.left b.strokeThickness.top
      (finalSize.x.sub (b.strokeThickness.right.add b.strokeThickness.left))
      (finalSize.y.sub (b.strokeThickness.bottom.add b.strokeThickness.top))
    (arrangeListFold step ui children rectForChild, finalSize)
  | .canvas =>
    (arrangeCanvasFold step ui children, finalSize)
  | _ =>
    let finalRect := Rect.new (F32.fin 0) (F32.fin 0) finalSize.x finalSize.y
    (arrangeListFold step ui children finalRect, finalSize)

/-- `UserInterface::arrange`. -/
def arrange : Nat → UserInterface → Handle → Rect → UserInterface
  | 0, ui, _, _ => ui
  | n + 1, ui, nodeHandle, finalRect =>
    match ui.nodes.borrow nodeHandle with
    | Option.none => ui
    | Option.some node =>
      if node.visibility ≠ Visibility.visible then ui
      else
        let marginX := node.margin.left.add node.margin.right
        let marginY := node.margin.top.add node.margin.bottom
        let originX := finalRect.x.add node.margin.left
        let originY := finalRect.y.add node.margin.top
        let size0 := Vec2.make (maxf (F32.fin 0) (finalRect.w.sub marginX))
                              (maxf (F32.fin 0) (finalRect.h.sub marginY))
        let sizeWithoutMargin := size0
        let s1x := if node.horizontalAlignment ≠ HorizontalAlignment.stretch
                   then minf size0.x (node.desiredSize.x.sub marginX) else size0.x
        let s1y := if node.verticalAlignment ≠ VerticalAlignment.stretch
                   then minf size0.y (node.desiredSize.y.sub marginY) else size0.y
        let s2x := if F32.gt node.width (F32.fin 0) then node.width else s1x
        let s2y := if F32.gt node.height (F32.fin 0) then node.height else s1y
        let arRes := arrangeOverride (fun u c r => arrange n u c r)
                       ui node.kind node.children (Vec2.make s2x s2y)
        let ui1 := arRes.1
        let size := arRes.2
        ui1.updateNode nodeHandle (fun nd =>
          let s3x := if F32.gt size.x finalRect.w then finalRect.w else size.x
          let s3y := if F32.gt size.y finalRect.h then finalRect.h else size.y
          let ox :=
            match nd.horizontalAlignment with
            | HorizontalAlignment.center | HorizontalAlignment.stretch =>
              originX.add ((sizeWithoutMargin.x.sub s3x).mul (F32.fin ⟨1, 2⟩))
            | HorizontalAlignment.right => originX.add (sizeWithoutMargin.x.sub s3x)
            | _ => originX
          let oy :=
            match nd.verticalAlignment with
            | VerticalAlignment.center | VerticalAlignment.stretch =>
              originY.add ((sizeWithoutMargin.y.sub s3y).mul (F32.fin ⟨1, 2⟩))
            | VerticalAlignment.bottom => originY.add (sizeWithoutMargin.y.sub s3y)
            | _ => originY
          { nd with actualSize := Vec2.make s3x s3y,
                    actualLocalPosition := Vec2.make ox oy })

end UserInterface

namespace UserInterface

/-- The child loop of `draw_node`. -/
def drawChildrenFold (step : UserInterface → Handle → UserInterface) :
    UserInterface → List Handle → UserInterface
  | ui, [] => ui
  | ui, c :: rest => drawChildrenFold step (step ui c) rest

/-- `UserInterface::draw_node`: emit the node's clip command, its
kind-specific commands, recurse into the children, then pop the clip.  The
source consults the node's visibility nowhere in this function.  In the
Text arm the source unwraps `formatted_text` (always present for states the
code builds); an absent formatted text skips the text command here. -/
def drawNodeEmit (fontCache : Pool Font) (ui : UserInterface) (nodeHandle : Handle)
    (nesting : Nat) : UserInterface :=
  match ui.nodes.borrow nodeHandle with
  | Option.none => ui
  | Option.some node =>
    let bounds := node.getScreenBounds
        let dc0 := ui.drawingContext.setNesting nesting
        let clipRes := dc0.commitClipRect (bounds.inflate (F32.fin ⟨9, 10⟩) (F32.fin ⟨9, 10⟩))
        let uiA := { ui with drawingContext := clipRes.1 }
        let uiB := uiA.updateNode nodeHandle
          (fun nd => { nd with commandIndices := nd.commandIndices ++ [clipRes.2] })
        match node.kind with
        | UINodeKind.border b =>
          let dc1 := uiB.drawingContext.pushRectFilled bounds
          let dc2 := dc1.pushRectVary bounds b.strokeThickness
          let geomRes := dc2.commit CommandKind.geometry
          let uiC := { uiB with drawingContext := geomRes.1 }
          match geomRes.2 with
          | Option.some gi =>
            uiC.updateNode nodeHandle
              (fun nd => { nd with commandIndices := nd.commandIndices ++ [gi] })
          | Option.none => uiC
        | UINodeKind.text t =>
          let t1 :=
            if t.needUpdate then
              match fontCache.borrow t.font with
              | Option.some _ =>
                -- rebuild against font, actual size, colour, alignments;
                -- the source then sets `need_update` back to true (its TODO)
                { t with formattedText := Option.some ⟨t.text⟩, needUpdate := true }
              | Option.none => t
            else t
          let uiT := uiB.updateNode nodeHandle
            (fun nd => { nd with kind := UINodeKind.text t1 })
          match t1.formattedText with
          | Option.some ft =>
            let txtRes := uiT.drawingContext.drawText node.screenPosition ft
            let uiD := { uiT with drawingContext := txtRes.1 }
            match txtRes.2 with
            | Option.some ti =>
              uiD.updateNode nodeHandle
                (fun nd => { nd with commandIndices := nd.commandIndices ++ [ti] })
            | Option.none => uiD
          | Option.none => uiT
        | _ => uiB

/-- `UserInterface::draw_node`: emit the node's commands, recurse into the
children, then pop the clip. -/
def drawNode : Nat → Pool Font → UserInterface → Handle → Nat → UserInterface
  | 0, _, ui, _, _ => ui
  | n + 1, fontCache, ui, nodeHandle, nesting =>
    let ui1 := drawNodeEmit fontCache ui nodeHandle nesting
    let children :=
      match ui.nodes.borrow nodeHandle with
      | Option.some node => node.children
      | Option.none => []
    let ui2 := drawChildrenFold
      (fun u c => drawNode n fontCache u c (nesting + 1)) ui1 children
    { ui2 with drawingContext := ui2.drawingContext.revertClipGeom }

/-- `UserInterface::is_node_clipped`, with fuel for the parent walk (the
source recursion terminates on every acyclic parent chain). -/
def isNodeClipped : Nat → UserInterface → Handle → Vec2 → Bool
  | 0, _, _, _ => true
  | n + 1, ui, nodeHandle, pt =>
    match ui.nodes.borrow nodeHandle with
    | Option.none => true
    | Option.some node =>
      if node.visibility ≠ Visibility.visible then true
      else
        let hasClipHit := node.commandIndices.any (fun i =>
          match ui.drawingContext.commands[i]? with
          | Option.some cmd =>
            cmd.kind = CommandKind.clip && DrawingContext.isCommandContainsPoint cmd pt
          | Option.none => false)
        if ¬ hasClipHit then true
        else if node.parent ≠ Handle.none then isNodeClipped n ui node.parent pt
        else false

/-- `UserInterface::is_node_contains_point`.  The fuel for the clip-chain
walk is one more than the slot count, enough for every acyclic parent
chain. -/
def isNodeContainsPoint (ui : UserInterface) (nodeHandle : Handle) (pt : Vec2) : Bool :=
  match ui.nodes.borrow nodeHandle with
  | Option.none => false
  | Option.some node =>
    if node.visibility ≠ Visibility.visible then false
    else if ¬ isNodeClipped (ui.nodes.slots.length + 1) ui nodeHandle pt then
      node.commandIndices.any (fun i =>
        match ui.drawingContext.commands[i]? with
        | Option.some cmd =>
          cmd.kind = CommandKind.geometry && DrawingContext.isCommandContainsPoint cmd pt
        | Option.none => false)
    else false

/-- The child loop of `pick_node`, threading the mutable `level` counter and
the running `(picked, topmost_picked_level)` pair.  `rec` is the recursive
`pick_node` call at the remaining fuel. -/
def pickChildrenGo (rec : Handle → Int → Handle × Int) :
    List Handle → Int → Handle → Int → Handle × Int
  | [], level, picked, _ => (picked, level)
  | c :: rest, level, picked, topmost =>
    let level1 := level + 1
    let r := rec c level1
    let next : Handle × Int :=
      if r.1 ≠ Handle.none ∧ r.2 > topmost then (r.1, r.2) else (picked, topmost)
    pickChildrenGo rec rest r.2 next.1 next.2

/-- `UserInterface::pick_node`.  Returns the picked handle together with the
final value of the by-reference `level` counter. -/
def pickNode : Nat → UserInterface → Handle → Vec2 → Int → Handle × Int
  | 0, _, _, _, level => (Handle.none, level)
  | n + 1, ui, nodeHandle, pt, level =>
    let start : Handle × Int :=
      if ui.isNodeContainsPoint nodeHandle pt then (nodeHandle, level)
      else (Handle.none, 0)
    match ui.nodes.borrow nodeHandle with
    | Option.some node =>
      pickChildrenGo (fun c l => pickNode n ui c pt l) node.children level start.1 start.2
    | Option.none => (start.1, level)

/-- `UserInterface::hit_test`. -/
def hitTest (fuel : Nat) (ui : UserInterface) (pt : Vec2) : Handle :=
  let node :=
    if ui.nodes.isValidHandle ui.capturedNode then ui.capturedNode
    else ui.rootCanvas
  (pickNode fuel ui node pt 0).1

end UserInterface

/-- The interpretation environment for boxed event-handler closures: an
`invoke` function runs the closure with identifier `id` against the UI, the
target handle and the event, returning the mutated UI and event.  This
stands for the arbitrary `FnMut(&mut UserInterface, Handle<UINode>,
&mut RoutedEvent)` code a handler may execute. -/
def InvokeEnv : Type :=
  Nat → UserInterface → Handle → RoutedEvent → UserInterface × RoutedEvent

namespace UserInterface

/-- The body of `UserInterface::route_event` at one node, before bubbling:
take the handler out of the slot, invoke it if present, put the taken value
back, and report the parent recorded before the invocation. -/
def routeEventStep (invoke : InvokeEnv) (ui : UserInterface) (nodeHandle : Handle)
    (eventType : RoutedEventHandlerType) (eventArgs : RoutedEvent) :
    UserInterface × RoutedEvent × Handle :=
  let handler :=
    match ui.nodes.borrow nodeHandle with
    | Option.some node => node.eventHandlers.get eventType
    | Option.none => Option.none
  let parent :=
    match ui.nodes.borrow nodeHandle with
    | Option.some node => node.parent
    | Option.none => Handle.none
  -- take the event handler out of its slot
  let ui1 := ui.updateNode nodeHandle
    (fun nd => { nd with eventHandlers := nd.eventHandlers.set eventType Option.none })
  -- execute the event handler
  let invRes :=
    match handler with
    | Option.some id => invoke id ui1 nodeHandle eventArgs
    | Option.none => (ui1, eventArgs)
  -- put the event handler back
  let ui3 := invRes.1.updateNode nodeHandle
    (fun nd => { nd with eventHandlers := nd.eventHandlers.set eventType handler })
  (ui3, invRes.2, parent)

/-- `UserInterface::route_event`: handler step at the target, then bubble to
the parent while the event is unhandled. -/
def routeEvent (invoke : InvokeEnv) :
    Nat → UserInterface → Handle → RoutedEventHandlerType → RoutedEvent →
    UserInterface × RoutedEvent
  | 0, ui, _, _, eventArgs => (ui, eventArgs)
  | n + 1, ui, nodeHandle, eventType, eventArgs =>
    let stepRes := routeEventStep invoke ui nodeHandle eventType eventArgs
    let parent := stepRes.2.2
    if ¬ stepRes.2.1.handled ∧ parent ≠ Handle.none then
      routeEvent invoke n stepRes.1 parent eventType stepRes.2.1
    else
      (stepRes.1, stepRes.2.1)

/-- The MouseUp closure `create_button` installs on the button node
(`gui/mod.rs` lines 379-403): take the click handler and clear
`was_pressed`, invoke the click handler if one was installed (marking the
event handled), put the click handler back if the node still resolves, then
release the mouse capture.  `clickInvoke` interprets the boxed
`ButtonClickEventHandler` closure. -/
def buttonMouseUp (clickInvoke : Nat → UserInterface → Handle → UserInterface)
    (ui : UserInterface) (handle : Handle) (evt : RoutedEvent) :
    UserInterface × RoutedEvent :=
  -- Take-Call-PutBack trick to bypass the borrow checker
  let clickHandler :=
    match ui.nodes.borrow handle with
    | Option.some node =>
      match node.kind with
      | UINodeKind.button b => b.click
      | _ => Option.none
    | Option.none => Option.none
  let ui1 := ui.updateNode handle (fun nd =>
    match nd.kind with
    | UINodeKind.button b =>
      { nd with kind := UINodeKind.button { b with click := Option.none, wasPressed := false } }
    | _ => nd)
  let invRes :=
    match clickHandler with
    | Option.some id => (clickInvoke id ui1 handle, { evt with handled := true })
    | Option.none => (ui1, evt)
  -- second check required because the click handler can remove the node
  let ui3 := invRes.1.updateNode handle (fun nd =>
    match nd.kind with
    | UINodeKind.button b =>
      { nd with kind := UINodeKind.button { b with click := clickHandler } }
    | _ => nd)
  (ui3.releaseMouseCapture, invRes.2)

end UserInterface

namespace UserInterface

/-- Membership of `target` in the subtree rooted at `root` (the node itself
or reached through child lists), bounded by fuel like the traversals. -/
def inSubtree : Nat → UserInterface → Handle → Handle → Bool
  | 0, _, _, _ => false
  | n + 1, ui, root, target =>
    if root = target then true
    else
      match ui.nodes.borrow root with
      | Option.some node => node.children.any (fun c => inSubtree n ui c target)
      | Option.none => false

/-- Depth of a node below the root: distance along the parent chain
(`some 0` when the node's parent is null). -/
def nodeDepth : Nat → UserInterface → Handle → Option Nat
  | 0, _, _ => Option.none
  | n + 1, ui, h =>
    match ui.nodes.borrow h with
    | Option.some node =>
      if node.parent = Handle.none then Option.some 0
      else (nodeDepth n ui node.parent).map (fun d => d + 1)
    | Option.none => Option.none

/-- The behaviour `pick_node` actually implements, written directly: the
candidate from the last child (in sibling order) whose subtree yields one
wins outright, regardless of depth; the node itself is returned only when no
child subtree yields a candidate and its own containment test passes. -/
def pickSpec : Nat → UserInterface → Handle → Vec2 → Handle
  | 0, _, _, _ => Handle.none
  | n + 1, ui, nodeHandle, pt =>
    let fromChildren :=
      match ui.nodes.borrow nodeHandle with
      | Option.some node =>
        node.children.foldl
          (fun acc c =>
            if pickSpec n ui c pt = Handle.none then acc else pickSpec n ui c pt)
          Handle.none
      | Option.none => Handle.none
    if fromChildren = Handle.none then
      (if ui.isNodeContainsPoint nodeHandle pt then nodeHandle else Handle.none)
    else fromChildren

/-- The `was_pressed` flag of the button at `h`, when `h` resolves to a
Button node. -/
def wasPressedOf (ui : UserInterface) (h : Handle) : Option Bool :=
  match ui.nodes.borrow h with
  | Option.some node =>
    match node.kind with
    | UINodeKind.button b => Option.some b.wasPressed
    | _ => Option.none
  | Option.none => Option.none

end UserInterface

namespace UserInterface

theorem updateNode_of_borrow_none (ui : UserInterface) (h : Handle) (f : UINode → UINode)
    (hb : ui.nodes.borrow h = Option.none) : ui.updateNode h f = ui := by
  unfold updateNode
  rw [Pool.borrow_none_update _ _ _ hb]

theorem borrow_updateNode_self (ui : UserInterface) (h : Handle) (f : UINode → UINode) :
    (ui.updateNode h f).nodes.borrow h = (ui.nodes.borrow h).map f :=
  Pool.borrow_update_self ui.nodes h f

theorem borrow_updateNode_other (ui : UserInterface) (h h' : Handle) (f : UINode → UINode)
    (hne : h' ≠ h) : (ui.updateNode h f).nodes.borrow h' = ui.nodes.borrow h' :=
  Pool.borrow_update_other ui.nodes h h' f hne

end UserInterface

/-- CLAIM C9 — `capture_mouse(handle)` returns true and records the handle
as the captured node if and only if no capture is currently held and the
handle resolves; in every other case it returns false and the capture state
(indeed the whole UI state) is unchanged. -/
theorem claim9_capture_mouse_iff (ui : UserInterface) (h : Handle) :
    ((ui.captureMouse h).2 = true ↔
      (ui.capturedNode.isNone = true ∧ ui.nodes.isValidHandle h = true)) ∧
    ((ui.captureMouse h).2 = true →
      (ui.captureMouse h).1 = { ui with capturedNode := h }) ∧
    ((ui.captureMouse h).2 = false → (ui.captureMouse h).1 = ui) := by
  unfold UserInterface.captureMouse
  by_cases h1 : ui.capturedNode.isNone = true
  · by_cases h2 : ui.nodes.isValidHandle h = true
    · simp [h1, h2]
    · simp [h1, h2]
  · simp [h1]

/-- CLAIM C1 — for every handle that does not resolve (stale generation,
out of range, or none), `measure`, `arrange` and `route_event` return
without panicking and without modifying any node: the failed borrow is
silently treated as "no node" and the operation skips it.  (`measure`
returning `some ui` additionally records that the run does not reach the
source's undefined-behaviour path.) -/
theorem claim1_stale_handle_ops_noop (fuel : Nat) (ui : UserInterface) (h : Handle)
    (availableSize : Vec2) (finalRect : Rect) (invoke : InvokeEnv)
    (eventType : RoutedEventHandlerType) (evt : RoutedEvent)
    (hb : ui.nodes.borrow h = Option.none) :
    UserInterface.measure fuel ui h availableSize = Option.some ui ∧
    UserInterface.arrange fuel ui h finalRect = ui ∧
    UserInterface.routeEvent invoke fuel ui h eventType evt = (ui, evt) := by
  refine ⟨?_, ?_, ?_⟩
  · cases fuel with
    | zero => rfl
    | succ n => unfold UserInterface.measure; rw [hb]
  · cases fuel with
    | zero => rfl
    | succ n => unfold UserInterface.arrange; rw [hb]
  · cases fuel with
    | zero => rfl
    | succ n =>
      unfold UserInterface.routeEvent
      have hstep : UserInterface.routeEventStep invoke ui h eventType evt =
          (ui, evt, Handle.none) := by
        unfold UserInterface.routeEventStep
        rw [hb]
        simp only
        rw [UserInterface.updateNode_of_borrow_none ui h _ hb]
        rw [UserInterface.updateNode_of_borrow_none ui h _ hb]
      rw [hstep]
      simp

/-- A one-node pool whose handle `mk 5 0` is out of range and whose handle
`mk 0 1` is stale: used as the concrete witness state for stale-handle
behaviour. -/
def staleSampleUI : UserInterface where
  nodes := ⟨[⟨0, Option.some (UINode.new UINodeKind.canvas)⟩]⟩
  drawingContext := DrawingContext.new
  defaultFont := Handle.none
  visualDebug := false
  rootCanvas := Handle.mk 0 0
  pickedNode := Handle.none
  prevPickedNode := Handle.none
  capturedNode := Handle.none

/-- A no-op handler interpretation, for witnesses. -/
def idInvoke : InvokeEnv := fun _ u _ e => (u, e)

/-- Witness for C1: at the concrete out-of-range handle `mk 5 0` the borrow
fails and the three operations leave the state untouched. -/
theorem claim1_witness :
    staleSampleUI.nodes.borrow (Handle.mk 5 0) = Option.none ∧
    UserInterface.measure 3 staleSampleUI (Handle.mk 5 0)
        (Vec2.make (F32.fin 800) (F32.fin 600)) = Option.some staleSampleUI ∧
    UserInterface.arrange 3 staleSampleUI (Handle.mk 5 0)
        (Rect.new (F32.fin 0) (F32.fin 0) (F32.fin 800) (F32.fin 600)) = staleSampleUI ∧
    UserInterface.routeEvent idInvoke 3 staleSampleUI (Handle.mk 5 0)
        RoutedEventHandlerType.mouseDown (RoutedEvent.new RoutedEventKind.mouseEnter) =
      (staleSampleUI, RoutedEvent.new RoutedEventKind.mouseEnter) := by
  refine ⟨by rfl, ?_⟩
  exact claim1_stale_handle_ops_noop 3 staleSampleUI (Handle.mk 5 0)
    (Vec2.make (F32.fin 800) (F32.fin 600))
    (Rect.new (F32.fin 0) (F32.fin 0) (F32.fin 800) (F32.fin 600))
    idInvoke RoutedEventHandlerType.mouseDown
    (RoutedEvent.new RoutedEventKind.mouseEnter) (by rfl)

/-- A single Collapsed node with an explicit width and height. -/
def collapsedSampleUI : UserInterface where
  nodes := ⟨[⟨0, Option.some { UINode.new UINodeKind.base with
    visibility := Visibility.collapsed,
    width := F32.fin 200, height := F32.fin 50 }⟩]⟩
  drawingContext := DrawingContext.new
  defaultFont := Handle.none
  visualDebug := false
  rootCanvas := Handle.mk 0 0
  pickedNode := Handle.none
  prevPickedNode := Handle.none
  capturedNode := Handle.none

/-- CLAIM C2 (code bug) — the claim says a Collapsed node's measure sets
`desired_size = (0,0)` and returns at once.  The source stores `(0,0)` but
does not return: it falls through to `measure_override` and dereferences the
still-null `node_kind` pointer — undefined behaviour (and past that point
the outer step would overwrite the `(0,0)` from the explicit width/height).
At the concrete Collapsed node the embedded run therefore ends in the
undefined-behaviour marker instead of a state with `desired_size = (0,0)`. -/
theorem claim2_collapsed_measure_hits_ub :
    (collapsedSampleUI.nodes.borrow (Handle.mk 0 0)).map (fun n => n.visibility) =
      Option.some Visibility.collapsed ∧
    UserInterface.measure 5 collapsedSampleUI (Handle.mk 0 0)
      (Vec2.make (F32.fin 800) (F32.fin 600)) = Option.none := by
  exact ⟨by rfl, by rfl⟩

/-- A single visible node with explicit height 100 and `max_size.y = 50`. -/
def heightClampSampleUI : UserInterface where
  nodes := ⟨[⟨0, Option.some { UINode.new UINodeKind.base with
    height := F32.fin 100,
    maxSize := Vec2.make F32.inf (F32.fin 50) }⟩]⟩
  drawingContext := DrawingContext.new
  defaultFont := Handle.none
  visualDebug := false
  rootCanvas := Handle.mk 0 0
  pickedNode := Handle.none
  prevPickedNode := Handle.none
  capturedNode := Handle.none

/-- CLAIM C5 (code bug) — the claim says both axes are clamped to
`[min_size, max_size]` after the explicit width/height overrides, so an
explicit height larger than `max_size.y` would yield desired height
`max_size.y`.  In the source the y-axis clamp runs *before* the height
override (width is handled in the claimed order), so the explicit height
survives unclamped: a visible childless node with height 100 and
`max_size.y = 50` measures to desired height 100, not 50. -/
theorem claim5_height_override_unclamped :
    (heightClampSampleUI.nodes.borrow (Handle.mk 0 0)).map
        (fun n => (n.height, n.maxSize.y)) =
      Option.some (F32.fin 100, F32.fin 50) ∧
    (UserInterface.measure 5 heightClampSampleUI (Handle.mk 0 0)
        (Vec2.make (F32.fin 1000) (F32.fin 1000))).map
        (fun u => (u.nodes.borrow (Handle.mk 0 0)).map (fun n => n.desiredSize.y)) =
      Option.some (Option.some (F32.fin 100)) := by
  exact ⟨by rfl, by decide⟩

/-- Parent with two children `[c, d]`, `c` first. -/
def relinkSampleUI : UserInterface where
  nodes := ⟨[
    ⟨0, Option.some { UINode.new UINodeKind.canvas with
      children := [Handle.mk 1 0, Handle.mk 2 0] }⟩,
    ⟨0, Option.some { UINode.new UINodeKind.base with parent := Handle.mk 0 0 }⟩,
    ⟨0, Option.some { UINode.new UINodeKind.base with parent := Handle.mk 0 0 }⟩]⟩
  drawingContext := DrawingContext.new
  defaultFont := Handle.none
  visualDebug := false
  rootCanvas := Handle.mk 0 0
  pickedNode := Handle.none
  prevPickedNode := Handle.none
  capturedNode := Handle.none

/-- Counterexample to CLAIM C4 — re-linking a child already contained in the
parent is not a no-op: with child list `[c, d]`, `link(c, p)` leaves the
list as `[d, c]`, changing the order (and hence the draw and hit-test
order). -/
theorem claim4_counterexample :
    (relinkSampleUI.nodes.borrow (Handle.mk 0 0)).map (fun n => n.children) =
      Option.some [Handle.mk 1 0, Handle.mk 2 0] ∧
    ((relinkSampleUI.linkNodes (Handle.mk 1 0) (Handle.mk 0 0)).nodes.borrow
        (Handle.mk 0 0)).map (fun n => n.children) =
      Option.some [Handle.mk 2 0, Handle.mk 1 0] ∧
    [Handle.mk 2 0, Handle.mk 1 0] ≠ [Handle.mk 1 0, Handle.mk 2 0] := by
  exact ⟨by rfl, by rfl, by decide⟩

/-- CLAIM C4 as amended — re-linking a child `c` to a parent `p` that
already contains it keeps `c`'s parent equal to `p` and keeps `c` in `p`'s
child list exactly once, but moves it to the end of the list: the new child
list is the old one with the first occurrence of `c` removed and `c`
appended.  (It is a no-op only when `c` is already the last child.) -/
theorem claim4_amended_relink_moves_to_end (ui : UserInterface) (c p : Handle)
    (nc np : UINode)
    (hc : ui.nodes.borrow c = Option.some nc)
    (hp : ui.nodes.borrow p = Option.some np)
    (hparent : nc.parent = p)
    (hmem : c ∈ np.children)
    (hne : c ≠ p) :
    ((ui.linkNodes c p).nodes.borrow c).map (fun n => n.parent) = Option.some p ∧
    ((ui.linkNodes c p).nodes.borrow p).map (fun n => n.children) =
      Option.some (removeFirst np.children c ++ [c]) := by
  have hcp : p ≠ c := fun h => hne h.symm
  unfold UserInterface.linkNodes UserInterface.unlinkNode
  rw [hc]
  simp only [hparent]
  set f1 : UINode → UINode := fun node => { node with parent := Handle.none } with hf1
  set ui1 := ui.updateNode c f1 with hui1
  have hb1c : ui1.nodes.borrow c = Option.some (f1 nc) := by
    rw [hui1, UserInterface.borrow_updateNode_self, hc]; rfl
  have hb1p : ui1.nodes.borrow p = Option.some np := by
    rw [hui1, UserInterface.borrow_updateNode_other _ _ _ _ hcp, hp]
  set f2 : UINode → UINode :=
    fun parent => { parent with children := removeFirst parent.children c } with hf2
  set ui2 := ui1.updateNode p f2 with hui2
  have hb2c : ui2.nodes.borrow c = Option.some (f1 nc) := by
    rw [hui2, UserInterface.borrow_updateNode_other _ _ _ _ hne, hb1c]
  have hb2p : ui2.nodes.borrow p = Option.some (f2 np) := by
    rw [hui2, UserInterface.borrow_updateNode_self, hb1p]; rfl
  rw [hb2c]
  simp only
  set f3 : UINode → UINode := fun child => { child with parent := p } with hf3
  set ui3 := ui2.updateNode c f3 with hui3
  have hb3c : ui3.nodes.borrow c = Option.some (f3 (f1 nc)) := by
    rw [hui3, UserInterface.borrow_updateNode_self, hb2c]; rfl
  have hb3p : ui3.nodes.borrow p = Option.some (f2 np) := by
    rw [hui3, UserInterface.borrow_updateNode_other _ _ _ _ hcp, hb2p]
  set f4 : UINode → UINode :=
    fun parent => { parent with children := parent.children ++ [c] } with hf4
  set ui4 := ui3.updateNode p f4 with hui4
  have hb4c : ui4.nodes.borrow c = Option.some (f3 (f1 nc)) := by
    rw [hui4, UserInterface.borrow_updateNode_other _ _ _ _ hne, hb3c]
  have hb4p : ui4.nodes.borrow p = Option.some (f4 (f2 np)) := by
    rw [hui4, UserInterface.borrow_updateNode_self, hb3p]; rfl
  rw [hb4c, hb4p]
  exact ⟨rfl, rfl⟩

/-- Witness for the amended C4 at the concrete two-child parent. -/
theorem claim4_witness :
    ((relinkSampleUI.linkNodes (Handle.mk 1 0) (Handle.mk 0 0)).nodes.borrow
        (Handle.mk 1 0)).map (fun n => n.parent) = Option.some (Handle.mk 0 0) ∧
    ((relinkSampleUI.linkNodes (Handle.mk 1 0) (Handle.mk 0 0)).nodes.borrow
        (Handle.mk 0 0)).map (fun n => n.children) =
      Option.some (removeFirst [Handle.mk 1 0, Handle.mk 2 0] (Handle.mk 1 0) ++
        [Handle.mk 1 0]) :=
  claim4_amended_relink_moves_to_end relinkSampleUI (Handle.mk 1 0) (Handle.mk 0 0)
    { UINode.new UINodeKind.base with parent := Handle.mk 0 0 }
    { UINode.new UINodeKind.canvas with children := [Handle.mk 1 0, Handle.mk 2 0] }
    (by rfl) (by rfl) (by rfl) (by decide) (by decide)

/-- A button whose click slot is occupied while `was_pressed` is false. -/
def buttonSampleUI : UserInterface where
  nodes := ⟨[⟨0, Option.some (UINode.new
    (UINodeKind.button ⟨Option.some 0, false⟩))⟩]⟩
  drawingContext := DrawingContext.new
  defaultFont := Handle.none
  visualDebug := false
  rootCanvas := Handle.mk 0 0
  pickedNode := Handle.none
  prevPickedNode := Handle.none
  capturedNode := Handle.mk 0 0

/-- A click-handler interpretation whose effect is observable: it stamps
`prev_picked_node`. -/
def markClickInvoke : Nat → UserInterface → Handle → UserInterface :=
  fun _ u _ => { u with prevPickedNode := Handle.mk 9 9 }

/-- Counterexample to CLAIM C6 — the source's MouseUp handler never reads
`was_pressed`: with `was_pressed = false` and a click handler installed, the
click handler still runs (its effect is visible and the event is marked
handled), so "invoked if and only if `was_pressed` was true" is false. -/
theorem claim6_counterexample :
    buttonSampleUI.wasPressedOf (Handle.mk 0 0) = Option.some false ∧
    (UserInterface.buttonMouseUp markClickInvoke buttonSampleUI (Handle.mk 0 0)
      (RoutedEvent.new (RoutedEventKind.mouseUp Vec2.new MouseButton.left))).2.handled
      = true ∧
    (UserInterface.buttonMouseUp markClickInvoke buttonSampleUI (Handle.mk 0 0)
      (RoutedEvent.new (RoutedEventKind.mouseUp Vec2.new MouseButton.left))).1.prevPickedNode
      = Handle.mk 9 9 := by
  exact ⟨by rfl, by rfl, by rfl⟩


namespace UserInterface

theorem wasPressedOf_updateTake (u : UserInterface) (h : Handle) (nc : UINode)
    (b : ButtonData) (hb : u.nodes.borrow h = Option.some nc)
    (hk : nc.kind = UINodeKind.button b) :
    (u.updateNode h (fun nd =>
      match nd.kind with
      | UINodeKind.button bb =>
        { nd with kind := UINodeKind.button { bb with click := Option.none, wasPressed := false } }
      | _ => nd)).wasPressedOf h = Option.some false := by
  unfold wasPressedOf
  rw [borrow_updateNode_self, hb]
  simp only [Option.map_some']
  simp only [hk]

theorem wasPressedOf_updateClick (u : UserInterface) (h : Handle) (cl : Option Nat)
    (v : Bool) (hwp : u.wasPressedOf h = Option.some v) :
    (u.updateNode h (fun nd =>
      match nd.kind with
      | UINodeKind.button bb =>
        { nd with kind := UINodeKind.button { bb with click := cl } }
      | _ => nd)).wasPressedOf h = Option.some v := by
  unfold wasPressedOf at hwp ⊢
  rw [borrow_updateNode_self]
  cases hbm : u.nodes.borrow h with
  | none => rw [hbm] at hwp; simp at hwp
  | some m =>
    rw [hbm] at hwp
    simp only at hwp
    simp only [Option.map_some']
    cases hkm : m.kind
    case button bb =>
      rw [hkm] at hwp
      simp only at hwp
      simp only [hkm]
      simpa using hwp
    all_goals (rw [hkm] at hwp; simp at hwp)

end UserInterface

/-- CLAIM C6 as amended — when a MouseUp event reaches a Button node, the
click handler is invoked (and the event marked handled) if and only if a
click handler is installed, regardless of `was_pressed`; in every case
`was_pressed` is cleared and the mouse capture is released.  (The
`was_pressed` conclusion assumes the click handler itself does not set the
flag again, which the handler code alone guarantees.) -/
theorem claim6_amended_click_fires_iff_installed
    (clickInvoke : Nat → UserInterface → Handle → UserInterface)
    (ui : UserInterface) (h : Handle) (nc : UINode) (b : ButtonData)
    (evt : RoutedEvent)
    (hb : ui.nodes.borrow h = Option.some nc)
    (hk : nc.kind = UINodeKind.button b)
    (hev : evt.handled = false)
    (hpres : ∀ id u, (clickInvoke id u h).wasPressedOf h = u.wasPressedOf h) :
    (UserInterface.buttonMouseUp clickInvoke ui h evt).2.handled = b.click.isSome ∧
    (UserInterface.buttonMouseUp clickInvoke ui h evt).1.capturedNode = Handle.none ∧
    (UserInterface.buttonMouseUp clickInvoke ui h evt).1.wasPressedOf h =
      Option.some false := by
  have hwp1 := UserInterface.wasPressedOf_updateTake ui h nc b hb hk
  unfold UserInterface.buttonMouseUp
  rw [hb]
  simp only [hk]
  cases hc : b.click with
  | none =>
    refine ⟨by simp [hev], rfl, ?_⟩
    exact UserInterface.wasPressedOf_updateClick _ h Option.none false hwp1
  | some id =>
    have hwp2 : (clickInvoke id (ui.updateNode h (fun nd =>
        match nd.kind with
        | UINodeKind.button bb =>
          { nd with kind :=
              UINodeKind.button { bb with click := Option.none, wasPressed := false } }
        | _ => nd)) h).wasPressedOf h = Option.some false := by
      rw [hpres]; exact hwp1
    refine ⟨rfl, rfl, ?_⟩
    exact UserInterface.wasPressedOf_updateClick _ h (Option.some id) false hwp2

/-- Witness for the amended C6 at the concrete button (click handler
installed, `was_pressed = false`, capture held): the handler fires, the
capture is released, `was_pressed` ends cleared. -/
theorem claim6_witness :
    (UserInterface.buttonMouseUp markClickInvoke buttonSampleUI (Handle.mk 0 0)
      (RoutedEvent.new (RoutedEventKind.mouseDown Vec2.new MouseButton.left))).2.handled
      = (Option.some 0).isSome ∧
    (UserInterface.buttonMouseUp markClickInvoke buttonSampleUI (Handle.mk 0 0)
      (RoutedEvent.new (RoutedEventKind.mouseDown Vec2.new MouseButton.left))).1.capturedNode
      = Handle.none ∧
    (UserInterface.buttonMouseUp markClickInvoke buttonSampleUI (Handle.mk 0 0)
      (RoutedEvent.new (RoutedEventKind.mouseDown Vec2.new MouseButton.left))).1.wasPressedOf
      (Handle.mk 0 0) = Option.some false :=
  claim6_amended_click_fires_iff_installed markClickInvoke buttonSampleUI (Handle.mk 0 0)
    (UINode.new (UINodeKind.button ⟨Option.some 0, false⟩)) ⟨Option.some 0, false⟩
    (RoutedEvent.new (RoutedEventKind.mouseDown Vec2.new MouseButton.left))
    (by rfl) (by rfl) (by rfl) (fun _ _ => rfl)

/-- CLAIM C10 — the routing step at a node restores the handler slot
`(N, K)` to exactly the handler that occupied it before the invocation: the
taken value is written back after the invocation, so any handler installed
into the slot by code running during the invocation is discarded.  (When the
invocation destroys the node, the slot is gone and the write-back is a
silent no-op.) -/
theorem claim10_handler_slot_restored (invoke : InvokeEnv) (ui : UserInterface)
    (h : Handle) (t : RoutedEventHandlerType) (evt : RoutedEvent) (n : UINode)
    (hb : ui.nodes.borrow h = Option.some n) :
    ∀ n2, (UserInterface.routeEventStep invoke ui h t evt).1.nodes.borrow h =
        Option.some n2 →
      n2.eventHandlers.get t = n.eventHandlers.get t := by
  intro n2 hbn2
  unfold UserInterface.routeEventStep at hbn2
  rw [hb] at hbn2
  simp only at hbn2
  rw [UserInterface.borrow_updateNode_self] at hbn2
  obtain ⟨m, hmb, hfm⟩ := Option.map_eq_some'.mp hbn2
  rw [← hfm]
  cases t <;> rfl

/-- A node carrying a MouseDown handler (identifier 7). -/
def handlerSampleNode : UINode :=
  { UINode.new UINodeKind.base with
    eventHandlers := { EventHandlers.default with mouseDown := Option.some 7 } }

/-- The handler-table state for the C10 witness. -/
def handlerSampleUI : UserInterface where
  nodes := ⟨[⟨0, Option.some handlerSampleNode⟩]⟩
  drawingContext := DrawingContext.new
  defaultFont := Handle.none
  visualDebug := false
  rootCanvas := Handle.mk 0 0
  pickedNode := Handle.none
  prevPickedNode := Handle.none
  capturedNode := Handle.none

/-- A handler interpretation that tries to install a different handler
(identifier 99) into the very slot being routed. -/
def installInvoke : InvokeEnv := fun _ u hh e =>
  (u.updateNode hh (fun x =>
    { x with eventHandlers :=
        x.eventHandlers.set RoutedEventHandlerType.mouseDown (Option.some 99) }), e)

/-- Witness for C10: the handler installed during the invocation is
discarded — after the routing step the MouseDown slot again holds handler 7. -/
theorem claim10_witness :
    ((UserInterface.routeEventStep installInvoke handlerSampleUI (Handle.mk 0 0)
        RoutedEventHandlerType.mouseDown
        (RoutedEvent.new RoutedEventKind.mouseEnter)).1.nodes.borrow
        (Handle.mk 0 0)).map
      (fun x => x.eventHandlers.get RoutedEventHandlerType.mouseDown) =
      Option.some (Option.some 7) := by
  have happ := claim10_handler_slot_restored installInvoke handlerSampleUI (Handle.mk 0 0)
    RoutedEventHandlerType.mouseDown (RoutedEvent.new RoutedEventKind.mouseEnter)
    handlerSampleNode (by rfl)
  cases hres : (UserInterface.routeEventStep installInvoke handlerSampleUI (Handle.mk 0 0)
      RoutedEventHandlerType.mouseDown
      (RoutedEvent.new RoutedEventKind.mouseEnter)).1.nodes.borrow (Handle.mk 0 0) with
  | none => exact absurd hres (by decide)
  | some n2 =>
    have hslot := happ n2 hres
    simp only [Option.map_some']
    rw [hslot]
    rfl

theorem DrawingContext.commit_commands (dc : DrawingContext) (k : CommandKind) :
    ∃ t, (dc.commit k).1.commands = dc.commands ++ t := by
  unfold DrawingContext.commit
  cases hpr : dc.pendingRects with
  | nil => exact ⟨[], by simp⟩
  | cons r rs => exact ⟨_, rfl⟩

theorem DrawingContext.drawText_commands (dc : DrawingContext) (o : Vec2)
    (ft : FormattedText) : ∃ t, (dc.drawText o ft).1.commands = dc.commands ++ t := by
  unfold DrawingContext.drawText
  by_cases hft : ft.text = ""
  · exact ⟨[], by simp [hft]⟩
  · exact ⟨[⟨CommandKind.textCmd, dc.nesting, []⟩], by simp [hft]⟩

theorem UserInterface.borderCommit_dc (u : UserInterface) (hh : Handle)
    (r r2 : Rect) (th : Thickness) :
    ∃ t, (match (((u.drawingContext.pushRectFilled r).pushRectVary r2 th).commit
            CommandKind.geometry).2 with
          | Option.some gi =>
            ({ u with drawingContext :=
                (((u.drawingContext.pushRectFilled r).pushRectVary r2 th).commit
                  CommandKind.geometry).1 }).updateNode hh
              (fun nd => { nd with commandIndices := nd.commandIndices ++ [gi] })
          | Option.none =>
            { u with drawingContext :=
                (((u.drawingContext.pushRectFilled r).pushRectVary r2 th).commit
                  CommandKind.geometry).1 }).drawingContext.commands =
      u.drawingContext.commands ++ t := by
  cases hpd : u.drawingContext.pendingRects with
  | nil =>
    simp only [DrawingContext.pushRectFilled, DrawingContext.pushRectVary,
      DrawingContext.commit, hpd, List.nil_append, List.cons_append]
    exact ⟨_, rfl⟩
  | cons a as =>
    simp only [DrawingContext.pushRectFilled, DrawingContext.pushRectVary,
      DrawingContext.commit, hpd, List.cons_append]
    exact ⟨_, rfl⟩

theorem UserInterface.textDraw_dc (u : UserInterface) (hh : Handle)
    (pos : Vec2) (ft : FormattedText) :
    ∃ t, (match (u.drawingContext.drawText pos ft).2 with
          | Option.some ti =>
            ({ u with drawingContext := (u.drawingContext.drawText pos ft).1 }).updateNode hh
              (fun nd => { nd with commandIndices := nd.commandIndices ++ [ti] })
          | Option.none =>
            { u with drawingContext := (u.drawingContext.drawText pos ft).1 }).drawingContext.commands =
      u.drawingContext.commands ++ t := by
  unfold DrawingContext.drawText
  by_cases hft : ft.text = ""
  · simp only [hft, if_true]
    exact ⟨[], by simp⟩
  · simp only [hft, if_false]
    exact ⟨_, rfl⟩

theorem UserInterface.drawNodeEmit_commands (fc : Pool Font) (ui : UserInterface)
    (h : Handle) (nest : Nat) (n : UINode) (hb : ui.nodes.borrow h = Option.some n) :
    ∃ t, (UserInterface.drawNodeEmit fc ui h nest).drawingContext.commands =
      (ui.drawingContext.commands ++
        [⟨CommandKind.clip, nest,
          [n.getScreenBounds.inflate (F32.fin ⟨9, 10⟩) (F32.fin ⟨9, 10⟩)]⟩]) ++ t := by
  unfold UserInterface.drawNodeEmit
  rw [hb]
  cases hk : n.kind
  case border b =>
    simp only [hk]
    exact UserInterface.borderCommit_dc _ _ _ _ _
  case text td =>
    simp only [hk]
    cases hnu : td.needUpdate
    case true =>
      cases hfb : fc.borrow td.font with
      | some fnt =>
        simp only [hnu, hfb, if_true]
        exact UserInterface.textDraw_dc _ _ _ _
      | none =>
        simp only [hnu, hfb, if_true]
        cases hftx : td.formattedText with
        | some ft => simp only [hftx]; exact UserInterface.textDraw_dc _ _ _ _
        | none => simp only [hftx]; exact ⟨[], by simp only [List.append_nil]; rfl⟩
    case false =>
      simp only [hnu, Bool.false_eq_true, if_false]
      cases hftx : td.formattedText with
      | some ft => simp only [hftx]; exact UserInterface.textDraw_dc _ _ _ _
      | none => simp only [hftx]; exact ⟨[], by simp only [List.append_nil]; rfl⟩
  all_goals (simp only [hk]; refine ⟨[], ?_⟩; simp [UserInterface.updateNode,
    DrawingContext.commitClipRect, DrawingContext.setNesting])


theorem UserInterface.commands_drawChildrenFold
    (step : UserInterface → Handle → UserInterface)
    (hstep : ∀ u c, ∃ t, (step u c).drawingContext.commands =
      u.drawingContext.commands ++ t) :
    ∀ (cs : List Handle) (ui : UserInterface),
      ∃ t, (UserInterface.drawChildrenFold step ui cs).drawingContext.commands =
        ui.drawingContext.commands ++ t := by
  intro cs
  induction cs with
  | nil => intro ui; exact ⟨[], by simp [UserInterface.drawChildrenFold]⟩
  | cons c rest ih =>
    intro ui
    obtain ⟨t1, h1⟩ := hstep ui c
    obtain ⟨t2, h2⟩ := ih (step ui c)
    refine ⟨t1 ++ t2, ?_⟩
    show (UserInterface.drawChildrenFold step (step ui c) rest).drawingContext.commands = _
    rw [h2, h1, List.append_assoc]

theorem UserInterface.drawNode_commands :
    ∀ (fuel : Nat) (fc : Pool Font) (ui : UserInterface) (h : Handle) (nest : Nat),
      ∃ t, (UserInterface.drawNode fuel fc ui h nest).drawingContext.commands =
        ui.drawingContext.commands ++ t := by
  intro fuel
  induction fuel with
  | zero => exact fun fc ui h nest => ⟨[], by simp [UserInterface.drawNode]⟩
  | succ n ih =>
    intro fc ui h nest
    have hemit : ∃ t1, (UserInterface.drawNodeEmit fc ui h nest).drawingContext.commands =
        ui.drawingContext.commands ++ t1 := by
      cases hbn : ui.nodes.borrow h with
      | none => exact ⟨[], by unfold UserInterface.drawNodeEmit; rw [hbn]; simp⟩
      | some n0 =>
        obtain ⟨t, ht⟩ := UserInterface.drawNodeEmit_commands fc ui h nest n0 hbn
        exact ⟨_, by rw [ht, List.append_assoc]⟩
    obtain ⟨t1, h1⟩ := hemit
    obtain ⟨t2, h2⟩ := UserInterface.commands_drawChildrenFold
      (fun u c => UserInterface.drawNode n fc u c (nest + 1))
      (fun u c => ih fc u c (nest + 1))
      (match ui.nodes.borrow h with
        | Option.some node => node.children
        | Option.none => [])
      (UserInterface.drawNodeEmit fc ui h nest)
    refine ⟨t1 ++ t2, ?_⟩
    show (UserInterface.drawChildrenFold _ _ _).drawingContext.commands = _
    rw [h2, h1, List.append_assoc]

/-- A single Hidden node (resolving handle, empty command buffer). -/
def hiddenSampleUI : UserInterface where
  nodes := ⟨[⟨0, Option.some { UINode.new UINodeKind.base with
    visibility := Visibility.hidden }⟩]⟩
  drawingContext := DrawingContext.new
  defaultFont := Handle.none
  visualDebug := false
  rootCanvas := Handle.mk 0 0
  pickedNode := Handle.none
  prevPickedNode := Handle.none
  capturedNode := Handle.none

/-- Counterexample to CLAIM C7 — the draw pass emits commands for a Hidden
node: starting from an empty command buffer, `draw_node` at the Hidden node
leaves one (clip) command in the buffer and records its index on the node,
where the claim requires no commands at all. -/
theorem claim7_counterexample :
    (hiddenSampleUI.nodes.borrow (Handle.mk 0 0)).map (fun n => n.visibility) =
      Option.some Visibility.hidden ∧
    hiddenSampleUI.drawingContext.commands.length = 0 ∧
    (UserInterface.drawNode 2 ⟨[]⟩ hiddenSampleUI (Handle.mk 0 0) 1).drawingContext.commands.length
      = 1 ∧
    ((UserInterface.drawNode 2 ⟨[]⟩ hiddenSampleUI (Handle.mk 0 0) 1).nodes.borrow
        (Handle.mk 0 0)).map (fun n => n.commandIndices) = Option.some [0] := by
  exact ⟨by rfl, by rfl, by rfl, by rfl⟩

/-- CLAIM C7 as amended — `draw_node` consults visibility nowhere: every
node whose handle resolves, Hidden and Collapsed included, emits its clip
command (recorded at the next free index of the command buffer, with the
current nesting depth and the node's inflated screen bounds); only a
non-resolving handle emits nothing.  -/
theorem claim7_amended_draw_ignores_visibility (fuel : Nat) (fc : Pool Font)
    (ui : UserInterface) (h : Handle) (nest : Nat) (n : UINode)
    (hb : ui.nodes.borrow h = Option.some n) :
    (UserInterface.drawNode (fuel + 1) fc ui h nest).drawingContext.commands[ui.drawingContext.commands.length]? =
      Option.some ⟨CommandKind.clip, nest,
        [n.getScreenBounds.inflate (F32.fin ⟨9, 10⟩) (F32.fin ⟨9, 10⟩)]⟩ := by
  obtain ⟨t1, h1⟩ := UserInterface.drawNodeEmit_commands fc ui h nest n hb
  obtain ⟨t2, h2⟩ := UserInterface.commands_drawChildrenFold
    (fun u c => UserInterface.drawNode fuel fc u c (nest + 1))
    (fun u c => UserInterface.drawNode_commands fuel fc u c (nest + 1))
    (match ui.nodes.borrow h with
      | Option.some node => node.children
      | Option.none => [])
    (UserInterface.drawNodeEmit fc ui h nest)
  have hfinal : (UserInterface.drawNode (fuel + 1) fc ui h nest).drawingContext.commands =
      ((ui.drawingContext.commands ++
        [⟨CommandKind.clip, nest,
          [n.getScreenBounds.inflate (F32.fin ⟨9, 10⟩) (F32.fin ⟨9, 10⟩)]⟩]) ++ t1) ++ t2 := by
    show (UserInterface.drawChildrenFold _ _ _).drawingContext.commands = _
    rw [h2, h1]
  rw [hfinal, List.append_assoc, List.append_assoc,
    List.getElem?_append_right (Nat.le_refl _)]
  simp

/-- Witness for the amended C7 at the concrete Hidden node: the clip command
for its (degenerate) screen bounds lands at index 0. -/
theorem claim7_witness :
    (UserInterface.drawNode 2 ⟨[]⟩ hiddenSampleUI (Handle.mk 0 0) 1).drawingContext.commands[hiddenSampleUI.drawingContext.commands.length]? =
      Option.some ⟨CommandKind.clip, 1,
        [({ UINode.new UINodeKind.base with
            visibility := Visibility.hidden } : UINode).getScreenBounds.inflate
          (F32.fin ⟨9, 10⟩) (F32.fin ⟨9, 10⟩)]⟩ :=
  claim7_amended_draw_ignores_visibility 1 ⟨[]⟩ hiddenSampleUI (Handle.mk 0 0) 1
    { UINode.new UINodeKind.base with visibility := Visibility.hidden } (by rfl)

namespace UserInterface

theorem isNodeContainsPoint_borrow_none (ui : UserInterface) (h : Handle) (pt : Vec2)
    (hb : ui.nodes.borrow h = Option.none) : ui.isNodeContainsPoint h pt = false := by
  unfold isNodeContainsPoint
  rw [hb]

theorem pickChildrenGo_level (rec : Handle → Int → Handle × Int)
    (hrec : ∀ c l, l ≤ (rec c l).2) :
    ∀ (cs : List Handle) (lvl : Int) (picked : Handle) (top : Int),
      lvl ≤ (pickChildrenGo rec cs lvl picked top).2 := by
  intro cs
  induction cs with
  | nil => intro lvl picked top; simp [pickChildrenGo]
  | cons c rest ih =>
    intro lvl picked top
    simp only [pickChildrenGo]
    have h1 : lvl + 1 ≤ (rec c (lvl + 1)).2 := hrec c (lvl + 1)
    have h2 := ih (rec c (lvl + 1)).2
      (if (rec c (lvl + 1)).1 ≠ Handle.none ∧ (rec c (lvl + 1)).2 > top
        then ((rec c (lvl + 1)).1, (rec c (lvl + 1)).2) else (picked, top)).1
      (if (rec c (lvl + 1)).1 ≠ Handle.none ∧ (rec c (lvl + 1)).2 > top
        then ((rec c (lvl + 1)).1, (rec c (lvl + 1)).2) else (picked, top)).2
    omega

theorem pickNode_level :
    ∀ (n : Nat) (ui : UserInterface) (pt : Vec2) (h : Handle) (lvl : Int),
      lvl ≤ (pickNode n ui h pt lvl).2 := by
  intro n
  induction n with
  | zero => intro ui pt h lvl; simp [pickNode]
  | succ m ih =>
    intro ui pt h lvl
    unfold pickNode
    cases hbn : ui.nodes.borrow h with
    | none => simp
    | some node =>
      exact pickChildrenGo_level _ (fun c l => ih ui pt c l) node.children lvl _ _

theorem pickChildrenGo_mem (rec : Handle → Int → Handle × Int) (P : Handle → Prop) :
    ∀ (cs : List Handle) (lvl : Int) (picked : Handle) (top : Int),
      (∀ c ∈ cs, ∀ l, (rec c l).1 = Handle.none ∨ P ((rec c l).1)) →
      (picked = Handle.none ∨ P picked) →
      ((pickChildrenGo rec cs lvl picked top).1 = Handle.none ∨
        P ((pickChildrenGo rec cs lvl picked top).1)) := by
  intro cs
  induction cs with
  | nil => intro lvl picked top _ hp; simpa [pickChildrenGo] using hp
  | cons c rest ih =>
    intro lvl picked top hcs hp
    simp only [pickChildrenGo]
    apply ih
    · intro c' hc' l
      exact hcs c' (List.mem_cons_of_mem _ hc') l
    · by_cases hcond : (rec c (lvl + 1)).1 ≠ Handle.none ∧ (rec c (lvl + 1)).2 > top
      · simp only [if_pos hcond]
        rcases hcs c (List.mem_cons_self c rest) (lvl + 1) with h0 | h1
        · exact absurd h0 hcond.1
        · exact Or.inr h1
      · simp only [if_neg hcond]
        exact hp

theorem pickNode_subtree :
    ∀ (n : Nat) (ui : UserInterface) (pt : Vec2) (h : Handle) (lvl : Int),
      (pickNode n ui h pt lvl).1 = Handle.none ∨
        inSubtree n ui h ((pickNode n ui h pt lvl).1) = true := by
  intro n
  induction n with
  | zero => intro ui pt h lvl; exact Or.inl rfl
  | succ m ih =>
    intro ui pt h lvl
    unfold pickNode
    cases hbn : ui.nodes.borrow h with
    | none =>
      have hcont := isNodeContainsPoint_borrow_none ui h pt hbn
      simp [hcont]
    | some node =>
      apply pickChildrenGo_mem _ (fun x => inSubtree (m + 1) ui h x = true)
      · intro c hc l
        rcases ih ui pt c l with h0 | h1
        · exact Or.inl h0
        · refine Or.inr ?_
          show inSubtree (m + 1) ui h _ = true
          unfold inSubtree
          by_cases heq : h = (pickNode m ui c pt l).1
          · simp [heq]
          · rw [if_neg heq, hbn]
            exact List.any_eq_true.mpr ⟨c, hc, h1⟩
      · by_cases hcont : ui.isNodeContainsPoint h pt = true
        · refine Or.inr ?_
          simp only [hcont, if_true]
          show inSubtree (m + 1) ui h h = true
          unfold inSubtree
          simp
        · rw [Bool.not_eq_true] at hcont
          simp only [hcont]
          exact Or.inl rfl

end UserInterface

/-- CLAIM C8 — while a mouse capture is held on a node whose handle
resolves, `hit_test` returns either the null handle or a handle inside the
captured subtree (the captured node itself or one of its descendants); it
never returns a node outside that subtree. -/
theorem claim8_capture_exclusivity (ui : UserInterface)
    (hcap : ui.nodes.isValidHandle ui.capturedNode = true) (pt : Vec2) (fuel : Nat) :
    UserInterface.hitTest fuel ui pt = Handle.none ∨
      UserInterface.inSubtree fuel ui ui.capturedNode
        (UserInterface.hitTest fuel ui pt) = true := by
  unfold UserInterface.hitTest
  simp only [hcap, if_true]
  exact UserInterface.pickNode_subtree fuel ui pt ui.capturedNode 0

namespace UserInterface

theorem foldl_lastSome (f : Handle → Handle) :
    ∀ (cs : List Handle) (a : Handle),
      cs.foldl (fun acc c => if f c = Handle.none then acc else f c) a =
        (if cs.foldl (fun acc c => if f c = Handle.none then acc else f c) Handle.none
            = Handle.none
         then a
         else cs.foldl (fun acc c => if f c = Handle.none then acc else f c)
           Handle.none) := by
  intro cs
  induction cs with
  | nil => intro a; simp
  | cons c rest ih =>
    intro a
    simp only [List.foldl_cons]
    rw [ih (if f c = Handle.none then a else f c),
        ih (if f c = Handle.none then Handle.none else f c)]
    by_cases hF : rest.foldl (fun acc c => if f c = Handle.none then acc else f c)
        Handle.none = Handle.none
    · by_cases hfc : f c = Handle.none
      · simp [hF, hfc]
      · simp [hF, hfc]
    · simp [hF]

theorem pickChildrenGo_spec (rec : Handle → Int → Handle × Int) (f : Handle → Handle)
    (hmono : ∀ c l, l ≤ (rec c l).2)
    (hspec : ∀ c l, 0 ≤ l → (rec c l).1 = f c) :
    ∀ (cs : List Handle) (lvl : Int) (picked : Handle) (top : Int),
      0 ≤ lvl → top ≤ lvl →
      (pickChildrenGo rec cs lvl picked top).1 =
        cs.foldl (fun acc c => if f c = Handle.none then acc else f c) picked := by
  intro cs
  induction cs with
  | nil => intro lvl picked top _ _; simp [pickChildrenGo]
  | cons c rest ih =>
    intro lvl picked top h0 htop
    simp only [pickChildrenGo, List.foldl_cons]
    have hl1 : (0 : Int) ≤ lvl + 1 := by omega
    have hmono1 : lvl + 1 ≤ (rec c (lvl + 1)).2 := hmono c (lvl + 1)
    have hr : (rec c (lvl + 1)).1 = f c := hspec c (lvl + 1) hl1
    have hgt : (rec c (lvl + 1)).2 > top := by omega
    by_cases hfc : f c = Handle.none
    · have hcond : ¬((rec c (lvl + 1)).1 ≠ Handle.none ∧ (rec c (lvl + 1)).2 > top) := by
        rw [hr]
        simp [hfc]
      simp only [if_neg hcond]
      rw [ih (rec c (lvl + 1)).2 picked top (by omega) (by omega)]
      simp [hfc]
    · have hcond : (rec c (lvl + 1)).1 ≠ Handle.none ∧ (rec c (lvl + 1)).2 > top := by
        rw [hr]
        exact ⟨hfc, hgt⟩
      simp only [if_pos hcond]
      rw [ih (rec c (lvl + 1)).2 (rec c (lvl + 1)).1 (rec c (lvl + 1)).2 (by omega) (by omega)]
      rw [hr]
      simp [hfc]

theorem pickNode_eq_pickSpec :
    ∀ (n : Nat) (ui : UserInterface) (pt : Vec2) (h : Handle) (lvl : Int),
      0 ≤ lvl → (pickNode n ui h pt lvl).1 = pickSpec n ui h pt := by
  intro n
  induction n with
  | zero => intro ui pt h lvl _; rfl
  | succ m ih =>
    intro ui pt h lvl h0
    unfold pickNode pickSpec
    cases hbn : ui.nodes.borrow h with
    | none =>
      have hcont := isNodeContainsPoint_borrow_none ui h pt hbn
      simp [hcont]
    | some node =>
      rw [pickChildrenGo_spec (fun c l => pickNode m ui c pt l) (fun c => pickSpec m ui c pt)
        (fun c l => pickNode_level m ui pt c l) (fun c l hl => ih ui pt c l hl)
        node.children lvl _ _ h0 ?htop]
      case htop =>
        by_cases hcont : ui.isNodeContainsPoint h pt = true
        · simp [hcont]
        · rw [Bool.not_eq_true] at hcont
          simp [hcont]
          omega
      rw [foldl_lastSome]
      by_cases hcont : ui.isNodeContainsPoint h pt = true
      · simp [hcont]
      · rw [Bool.not_eq_true] at hcont
        simp [hcont]

end UserInterface

/-- CLAIM C3 as amended — `hit_test` does not return the deepest qualifying
node: because `pick_node` threads one ever-growing `level` counter through
the whole walk, it returns the candidate obtained by recursively preferring,
at every node, the last child (in sibling order) whose subtree yields any
candidate, regardless of depth; the visited node itself is returned only
when no child subtree yields a candidate and its own containment test
passes, and the null handle is returned when no node qualifies (`pickSpec`
is exactly this recursion). -/
theorem claim3_amended_pick_last_subtree (fuel : Nat) (ui : UserInterface) (pt : Vec2) :
    UserInterface.hitTest fuel ui pt =
      UserInterface.pickSpec fuel ui
        (if ui.nodes.isValidHandle ui.capturedNode then ui.capturedNode
         else ui.rootCanvas) pt := by
  unfold UserInterface.hitTest
  by_cases hcap : ui.nodes.isValidHandle ui.capturedNode = true
  · simp only [hcap, if_true]
    exact UserInterface.pickNode_eq_pickSpec fuel ui pt ui.capturedNode 0 (le_refl 0)
  · rw [Bool.not_eq_true] at hcap
    simp only [hcap, Bool.false_eq_true, if_false]
    exact UserInterface.pickNode_eq_pickSpec fuel ui pt ui.rootCanvas 0 (le_refl 0)

/-- The hit-test tree for the C3 counterexample: a root canvas with two
children — `A` (first, with a grandchild `G` at depth 2 whose geometry
contains the probe point) and `B` (second, at depth 1, whose geometry also
contains the point).  Commands 0..5 are the recorded clip/geometry commands
of the frame; every rectangle is the same 100x100 box containing the probe
point (5,5). -/
def pickSampleUI : UserInterface where
  nodes := ⟨[
    ⟨0, Option.some { UINode.new UINodeKind.canvas with
      children := [Handle.mk 1 0, Handle.mk 3 0], commandIndices := [0] }⟩,
    ⟨0, Option.some { UINode.new UINodeKind.base with
      parent := Handle.mk 0 0, children := [Handle.mk 2 0], commandIndices := [1] }⟩,
    ⟨0, Option.some { UINode.new UINodeKind.base with
      parent := Handle.mk 1 0, commandIndices := [2, 3] }⟩,
    ⟨0, Option.some { UINode.new UINodeKind.base with
      parent := Handle.mk 0 0, commandIndices := [4, 5] }⟩]⟩
  drawingContext := { DrawingContext.new with
    commands := [
      ⟨CommandKind.clip, 1, [Rect.new (F32.fin 0) (F32.fin 0) (F32.fin 100) (F32.fin 100)]⟩,
      ⟨CommandKind.clip, 2, [Rect.new (F32.fin 0) (F32.fin 0) (F32.fin 100) (F32.fin 100)]⟩,
      ⟨CommandKind.clip, 3, [Rect.new (F32.fin 0) (F32.fin 0) (F32.fin 100) (F32.fin 100)]⟩,
      ⟨CommandKind.geometry, 3, [Rect.new (F32.fin 0) (F32.fin 0) (F32.fin 100) (F32.fin 100)]⟩,
      ⟨CommandKind.clip, 2, [Rect.new (F32.fin 0) (F32.fin 0) (F32.fin 100) (F32.fin 100)]⟩,
      ⟨CommandKind.geometry, 2, [Rect.new (F32.fin 0) (F32.fin 0) (F32.fin 100) (F32.fin 100)]⟩]}
  defaultFont := Handle.none
  visualDebug := false
  rootCanvas := Handle.mk 0 0
  pickedNode := Handle.none
  prevPickedNode := Handle.none
  capturedNode := Handle.none

/-- The probe point for the C3 counterexample. -/
def pickSamplePt : Vec2 := Vec2.make (F32.fin 5) (F32.fin 5)

/-- Counterexample to CLAIM C3 — `hit_test` does not return the deepest
qualifying node: node `G` (handle `mk 2 0`, depth 2) passes the containment
test, yet `hit_test` returns the later sibling `B` (handle `mk 3 0`) at
depth 1, because `pick_node`'s shared `level` counter grows with every
visited node, letting any later sibling's candidate beat a deeper earlier
one. -/
theorem claim3_counterexample :
    UserInterface.hitTest 10 pickSampleUI pickSamplePt = Handle.mk 3 0 ∧
    pickSampleUI.isNodeContainsPoint (Handle.mk 2 0) pickSamplePt = true ∧
    UserInterface.nodeDepth 10 pickSampleUI (Handle.mk 2 0) = Option.some 2 ∧
    UserInterface.nodeDepth 10 pickSampleUI (Handle.mk 3 0) = Option.some 1 := by
  exact ⟨by decide, by decide, by decide, by decide⟩

/-- The C8 witness state: the C3 tree with the capture held on node `A`
(handle `mk 1 0`), a resolving handle. -/
def capturedSampleUI : UserInterface :=
  { pickSampleUI with capturedNode := Handle.mk 1 0 }

/-- Witness for C8 at the captured tree: with the capture held on `A`, the
hit test lands inside `A`'s subtree (it picks the grandchild `G`) or
nowhere. -/
theorem claim8_witness :
    capturedSampleUI.nodes.isValidHandle capturedSampleUI.capturedNode = true ∧
    (UserInterface.hitTest 10 capturedSampleUI pickSamplePt = Handle.none ∨
      UserInterface.inSubtree 10 capturedSampleUI capturedSampleUI.capturedNode
        (UserInterface.hitTest 10 capturedSampleUI pickSamplePt) = true) :=
  ⟨by decide, claim8_capture_exclusivity capturedSampleUI (by decide) pickSamplePt 10⟩
